import Mathlib

/-!
Shallow embedding of the driver-application intake system:
the PostgreSQL schema (drizzle/schema), the database access layer
(server db functions), the tRPC router procedures, and the client-side
CPF validation and masking helpers. Each definition is translated from
the corresponding source function; theorems settle the specification
claims about them.
-/

namespace DB

/-- The enum `statusEnum = pgEnum("status", ["pendente", "em_analise", "aprovado", "rejeitado"])`. -/
inductive Status
  | pendente
  | em_analise
  | aprovado
  | rejeitado
deriving DecidableEq, Repr

/-- The enum `availabilityEnum = pgEnum("availability", ["imediata", "15_dias", "30_dias"])`. -/
inductive Availability
  | imediata
  | dias15
  | dias30
deriving DecidableEq, Repr

/-- The enum `preferredScheduleEnum = pgEnum("preferred_schedule", ["manha","tarde","noite","integral","flexivel"])`. -/
inductive Schedule
  | manha
  | tarde
  | noite
  | integral
  | flexivel
deriving DecidableEq, Repr

/-- A row of the `applications` table (drizzle schema `applications`).
Timestamps are modelled as integers; nullable columns as `Option`. -/
structure Application where
  id : Nat
  fullName : String
  phone : String
  email : Option String
  cpf : String
  city : String
  state : String
  vehicleTypes : List String
  experienceYears : Int
  availability : Availability
  hasPendingFines : Bool
  acceptsLongTrips : Bool
  preferredSchedule : Schedule
  hasExperienceWithCargo : Bool
  hasExperienceWithPassengers : Bool
  notes : Option String
  status : Status
  createdAt : Int
  updatedAt : Int
deriving DecidableEq, Repr

/-- The stored set of applications (the `applications` table contents). -/
abbrev Table := List Application

/-- Function `updateApplicationStatus(id, status)`:
`db.update(applications).set({ status }).where(eq(applications.id, id))`. -/
def updateApplicationStatus (tbl : Table) (id : Nat) (status : Status) : Table :=
  tbl.map (fun a => if a.id = id then { a with status := status } else a)

/-- Function `getApplicationById(id)`:
`db.select().from(applications).where(eq(applications.id, id))`, taking the
first returned row if any. -/
def getApplicationById (tbl : Table) (id : Nat) : Option Application :=
  tbl.find? (fun a => a.id == id)

/-- The result shape of `getApplicationStats`. -/
structure Stats where
  total : Nat
  pendente : Nat
  em_analise : Nat
  aprovado : Nat
  rejeitado : Nat
deriving DecidableEq, Repr

/-- Function `getApplicationStats()`: selects all applications and counts them by status
with `allApplications.filter(a => a.status === "...").length`. -/
def getApplicationStats (tbl : Table) : Stats :=
  { total := tbl.length
    pendente := (tbl.filter (fun a => a.status == Status.pendente)).length
    em_analise := (tbl.filter (fun a => a.status == Status.em_analise)).length
    aprovado := (tbl.filter (fun a => a.status == Status.aprovado)).length
    rejeitado := (tbl.filter (fun a => a.status == Status.rejeitado)).length }

/-- The optional filters of `listApplications`. -/
structure ListFilters where
  vehicleType : Option String
  availability : Option Availability
  startDate : Option Int
  endDate : Option Int
deriving Repr

/-- The `WHERE` conditions accumulated by `listApplications`:
equality on `availability`, `gte(createdAt, startDate)`, `lte(createdAt, endDate)`;
an absent filter contributes no condition. -/
def matchesConditions (f : ListFilters) (a : Application) : Bool :=
  (match f.availability with
   | some v => a.availability == v
   | none => true) &&
  (match f.startDate with
   | some d => d ≤ a.createdAt
   | none => true) &&
  (match f.endDate with
   | some d => a.createdAt ≤ d
   | none => true)

/-- Ordering for `ORDER BY created_at DESC`: row `a` may precede row `b`. -/
def newerFirst (a b : Application) : Prop := b.createdAt ≤ a.createdAt

instance : DecidableRel newerFirst := fun a b => Int.decLe b.createdAt a.createdAt

instance : IsTotal Application newerFirst :=
  ⟨fun a b => Int.le_total b.createdAt a.createdAt⟩

instance : IsTrans Application newerFirst :=
  ⟨fun _ _ _ hab hbc => le_trans hbc hab⟩

/-- Function `listApplications(filters)`: applies the `WHERE` conditions, orders by
`createdAt` descending, then filters by vehicle type in memory
(`results.filter(app => app.vehicleTypes.includes(filters.vehicleType))`). -/
def listApplications (tbl : Table) (f : ListFilters) : Table :=
  let results := List.insertionSort newerFirst (tbl.filter (matchesConditions f))
  match f.vehicleType with
  | some vt => results.filter (fun a => a.vehicleTypes.contains vt)
  | none => results

end DB

namespace Client

/-- The digits of `cpf.replace(/\D/g, '')`: the string is stripped of non-digits, by reading each character as a digit:
the digit values of the input string, in order. -/
def cleanDigits (s : String) : List Nat :=
  (s.data.filter Char.isDigit).map (fun c => c.toNat - 48)

/-- The regex `/^(\d)\1+$/`: at least two characters, all equal to the first. -/
def allSameDigits : List Nat → Bool
  | [] => false
  | [_] => false
  | h :: t => t.all (fun x => x == h)

/-- First checksum loop of `isValidCPF`: `for i in 0..8, sum += cpf[i] * (10 - i)`. -/
def cpfSum1 (d : List Nat) : Nat :=
  (List.range 9).foldl (fun s i => s + d.getD i 0 * (10 - i)) 0

/-- Remainder step `remainder = (sum * 10) % 11; if (remainder === 10 || remainder === 11) remainder = 0`. -/
def cpfRem1 (d : List Nat) : Nat :=
  let r := (cpfSum1 d * 10) % 11
  if r = 10 ∨ r = 11 then 0 else r

/-- Second checksum loop of `isValidCPF`: `for i in 0..9, sum += cpf[i] * (11 - i)`. -/
def cpfSum2 (d : List Nat) : Nat :=
  (List.range 10).foldl (fun s i => s + d.getD i 0 * (11 - i)) 0

/-- Remainder step `remainder = (sum * 10) % 11; if (remainder === 10 || remainder === 11) remainder = 0`. -/
def cpfRem2 (d : List Nat) : Nat :=
  let r := (cpfSum2 d * 10) % 11
  if r = 10 ∨ r = 11 then 0 else r

/-- Function `isValidCPF` as written in the form page and in the router: strip non-digits,
require exactly 11 digits, reject all-identical digits, then check the two
verification digits. -/
def isValidCPF (cpf : String) : Bool :=
  let d := cleanDigits cpf
  if d.length ≠ 11 then false
  else if allSameDigits d then false
  else if cpfRem1 d ≠ d.getD 9 0 then false
  else if cpfRem2 d ≠ d.getD 10 0 then false
  else true

/-- Spec-side first verification digit, written from the claim text:
`((sum over i=0..8 of digit[i]*(10-i)) * 10) mod 11` with 10 and 11 mapped to 0. -/
def specDV1 (d : List Nat) : Nat :=
  let r := (((List.range 9).map (fun i => d.getD i 0 * (10 - i))).sum * 10) % 11
  if r = 10 ∨ r = 11 then 0 else r

/-- Spec-side second verification digit, written from the claim text:
`((sum over i=0..9 of digit[i]*(11-i)) * 10) mod 11` with 10 and 11 mapped to 0. -/
def specDV2 (d : List Nat) : Nat :=
  let r := (((List.range 10).map (fun i => d.getD i 0 * (11 - i))).sum * 10) % 11
  if r = 10 ∨ r = 11 then 0 else r

/-- The first eleven digit characters: `value.replace(/\D/g, '').slice(0, 11)`. -/
def first11Digits (s : String) : List Char :=
  (s.data.filter Char.isDigit).take 11

/-- The formatting step of `formatCPF`, applied to the at-most-eleven digits. -/
def formatCPFDigits (d : List Char) : String :=
  if d.length ≤ 3 then String.mk d
  else if d.length ≤ 6 then String.mk (d.take 3) ++ "." ++ String.mk (d.drop 3)
  else if d.length ≤ 9 then
    String.mk (d.take 3) ++ "." ++ String.mk ((d.drop 3).take 3) ++ "." ++
      String.mk (d.drop 6)
  else
    String.mk (d.take 3) ++ "." ++ String.mk ((d.drop 3).take 3) ++ "." ++
      String.mk ((d.drop 6).take 3) ++ "-" ++ String.mk (d.drop 9)

/-- Function `formatCPF` from the form page. -/
def formatCPF (value : String) : String := formatCPFDigits (first11Digits value)

/-- The formatting step of `formatPhone`, applied to the at-most-eleven digits. -/
def formatPhoneDigits (d : List Char) : String :=
  if d.length ≤ 2 then String.mk d
  else if d.length ≤ 7 then
    "(" ++ String.mk (d.take 2) ++ ") " ++ String.mk (d.drop 2)
  else
    "(" ++ String.mk (d.take 2) ++ ") " ++ String.mk ((d.drop 2).take 5) ++ "-" ++
      String.mk (d.drop 7)

/-- Function `formatPhone` from the form page. -/
def formatPhone (value : String) : String := formatPhoneDigits (first11Digits value)

end Client

namespace Router

/-- Caller roles, from `roleEnum = pgEnum("role", ["user", "admin"])`. -/
inductive Role
  | user
  | admin
deriving DecidableEq, Repr

/-- The errors the router layer can produce. -/
inductive ApiError
  | unauthorized
  | forbidden (msg : String)
  | notFound (msg : String)
  | badRequest
deriving DecidableEq, Repr

/-- Modelled from the spec: `protectedProcedure` lives in `_core/trpc`, which is
not among the given sources; per the tests, an unauthenticated caller is
rejected (with an error that is not the admin-gate FORBIDDEN), and an
authenticated caller is passed through with their user. -/
def protectedGate (caller : Option Role) : Except ApiError Role :=
  match caller with
  | none => .error .unauthorized
  | some r => .ok r

/-- Procedure gate `adminProcedure`: `protectedProcedure` followed by
`if (ctx.user.role !== 'admin') throw FORBIDDEN 'Acesso restrito a administradores'`. -/
def adminGate (caller : Option Role) : Except ApiError Role :=
  match protectedGate caller with
  | .error e => .error e
  | .ok r =>
    if r ≠ Role.admin then
      .error (.forbidden "Acesso restrito a administradores")
    else .ok r

/-- Procedure `applications.list`: admin-gated query calling `listApplications`.
Procedures return the response together with the post-state of the table. -/
def listProc (caller : Option Role) (tbl : DB.Table) (f : DB.ListFilters) :
    Except ApiError DB.Table × DB.Table :=
  match adminGate caller with
  | .error e => (.error e, tbl)
  | .ok _ => (.ok (DB.listApplications tbl f), tbl)

/-- Procedure `applications.getById`: admin-gated; throws
`NOT_FOUND 'Candidatura não encontrada'` when `getApplicationById` finds nothing. -/
def getByIdProc (caller : Option Role) (tbl : DB.Table) (id : Nat) :
    Except ApiError DB.Application × DB.Table :=
  match adminGate caller with
  | .error e => (.error e, tbl)
  | .ok _ =>
    match DB.getApplicationById tbl id with
    | none => (.error (.notFound "Candidatura não encontrada"), tbl)
    | some a => (.ok a, tbl)

/-- Procedure `applications.updateStatus`: admin-gated; calls `updateApplicationStatus`
and returns `{ success: true }`. -/
def updateStatusProc (caller : Option Role) (tbl : DB.Table) (id : Nat)
    (st : DB.Status) : Except ApiError Bool × DB.Table :=
  match adminGate caller with
  | .error e => (.error e, tbl)
  | .ok _ => (.ok true, DB.updateApplicationStatus tbl id st)

/-- Procedure `applications.stats`: admin-gated query calling `getApplicationStats`. -/
def statsProc (caller : Option Role) (tbl : DB.Table) :
    Except ApiError DB.Stats × DB.Table :=
  match adminGate caller with
  | .error e => (.error e, tbl)
  | .ok _ => (.ok (DB.getApplicationStats tbl), tbl)

/-- The input shape of `applications.submit` (its zod object). -/
structure SubmitInput where
  fullName : String
  phone : String
  email : Option String
  cpf : String
  city : String
  state : String
  vehicleTypes : List String
  experienceYears : Int
  availability : DB.Availability
  hasPendingFines : Bool
  acceptsLongTrips : Bool
  preferredSchedule : DB.Schedule
  hasExperienceWithCargo : Bool
  hasExperienceWithPassengers : Bool
  notes : Option String
deriving Repr

/-- The zod schema of `applications.submit`. The email well-formedness test is
zod library code and is kept as the parameter `emailOk`
(`z.string().email().optional().or(z.literal(""))`); the enum-valued and
boolean fields are well-typed by construction. `vehicleTypes` is
`z.array(z.string()).min(1)`. -/
def submitInputValid (emailOk : String → Bool) (i : SubmitInput) : Bool :=
  decide (3 ≤ i.fullName.length) &&
  decide (10 ≤ i.phone.length) &&
  (match i.email with
   | none => true
   | some e => emailOk e || (e == "")) &&
  Client.isValidCPF i.cpf &&
  decide (2 ≤ i.city.length) &&
  (i.state.length == 2) &&
  decide (1 ≤ i.vehicleTypes.length) &&
  decide (0 ≤ i.experienceYears)

/-- JS coercion `input.email || null` / `input.notes || null`: a JS-falsy (absent or empty)
string is stored as null. -/
def orNull : Option String → Option String
  | none => none
  | some s => if s = "" then none else some s

/-- The row handed to `createApplication` by the submit handler: the input
fields with `email` and `notes` coerced by `|| null`, the `status` column
taking the schema default `"pendente"`, and the database-assigned serial id
`newId` and timestamps `now`. -/
def submitRow (i : SubmitInput) (newId : Nat) (now : Int) : DB.Application :=
  { id := newId
    fullName := i.fullName
    phone := i.phone
    email := orNull i.email
    cpf := i.cpf
    city := i.city
    state := i.state
    vehicleTypes := i.vehicleTypes
    experienceYears := i.experienceYears
    availability := i.availability
    hasPendingFines := i.hasPendingFines
    acceptsLongTrips := i.acceptsLongTrips
    preferredSchedule := i.preferredSchedule
    hasExperienceWithCargo := i.hasExperienceWithCargo
    hasExperienceWithPassengers := i.hasExperienceWithPassengers
    notes := orNull i.notes
    status := DB.Status.pendente
    createdAt := now
    updatedAt := now }

/-- Procedure `applications.submit`: a `publicProcedure` — the caller plays no
role. After zod validation, `createApplication` inserts the row and the
procedure returns `{ success: true, id }`. -/
def submitProc (emailOk : String → Bool) (caller : Option Role) (tbl : DB.Table)
    (i : SubmitInput) (newId : Nat) (now : Int) :
    Except ApiError (Bool × Nat) × DB.Table :=
  if submitInputValid emailOk i then
    (.ok (true, newId), tbl ++ [submitRow i newId now])
  else (.error .badRequest, tbl)

end Router

section SampleData

/-- A concrete application row used to instantiate theorems. -/
def sampleApp : DB.Application :=
  { id := 1
    fullName := "João Silva"
    phone := "(11) 99999-9999"
    email := some "joao@email.com"
    cpf := "529.982.247-25"
    city := "São Paulo"
    state := "SP"
    vehicleTypes := ["caminhao", "carro"]
    experienceYears := 5
    availability := DB.Availability.imediata
    hasPendingFines := false
    acceptsLongTrips := true
    preferredSchedule := DB.Schedule.integral
    hasExperienceWithCargo := true
    hasExperienceWithPassengers := false
    notes := none
    status := DB.Status.pendente
    createdAt := 100
    updatedAt := 100 }

/-- The empty filter combination. -/
def noFilters : DB.ListFilters :=
  { vehicleType := none, availability := none, startDate := none, endDate := none }

end SampleData

/-- Claim C1: for every application id and target status, `updateApplicationStatus`
sets that application's status to the target value regardless of its current
status — the updated row is present whatever the old status was, every row with
that id ends at the target status, and no other row changes. -/
theorem updateStatus_any_transition (tbl : DB.Table) (i : Nat) (st : DB.Status)
    (a : DB.Application) (ha : a ∈ tbl) (hid : a.id = i) :
    { a with status := st } ∈ DB.updateApplicationStatus tbl i st ∧
    (∀ b ∈ DB.updateApplicationStatus tbl i st, b.id = i → b.status = st) ∧
    (∀ b ∈ tbl, b.id ≠ i → b ∈ DB.updateApplicationStatus tbl i st) := by
  refine ⟨?_, ?_, ?_⟩
  · exact List.mem_map.mpr ⟨a, ha, by simp [hid]⟩
  · intro b hb hbid
    rcases List.mem_map.mp hb with ⟨c, _, hcb⟩
    subst hcb
    by_cases h : c.id = i
    · simp [h]
    · simp [h] at hbid
  · intro b hb hbid
    exact List.mem_map.mpr ⟨b, hb, by simp [hbid]⟩

/-- Witness for C1 at a concrete table: the sample row moves from `pendente`
straight to `aprovado`. -/
theorem updateStatus_any_transition_witness :
    { sampleApp with status := DB.Status.aprovado } ∈
        DB.updateApplicationStatus [sampleApp] 1 DB.Status.aprovado ∧
    (∀ b ∈ DB.updateApplicationStatus [sampleApp] 1 DB.Status.aprovado,
        b.id = 1 → b.status = DB.Status.aprovado) ∧
    (∀ b ∈ [sampleApp], b.id ≠ 1 →
        b ∈ DB.updateApplicationStatus [sampleApp] 1 DB.Status.aprovado) :=
  updateStatus_any_transition [sampleApp] 1 DB.Status.aprovado sampleApp
    (List.mem_singleton.mpr rfl) rfl

/-- Helper for C5: the four status buckets partition the table. -/
theorem length_eq_sum_status_filters (tbl : DB.Table) :
    tbl.length =
      (tbl.filter (fun a => a.status == DB.Status.pendente)).length +
      (tbl.filter (fun a => a.status == DB.Status.em_analise)).length +
      (tbl.filter (fun a => a.status == DB.Status.aprovado)).length +
      (tbl.filter (fun a => a.status == DB.Status.rejeitado)).length := by
  induction tbl with
  | nil => rfl
  | cons a t ih =>
    rcases hs : a.status <;> simp [List.filter_cons, hs] <;> omega

/-- Claim C5: `getApplicationStats` returns the five counts bucketed by status —
`total` is the number of rows, each named bucket counts the rows with that
status, and `total` equals the sum of the four buckets. -/
theorem stats_five_buckets (tbl : DB.Table) :
    (DB.getApplicationStats tbl).total = tbl.length ∧
    (DB.getApplicationStats tbl).pendente =
      (tbl.filter (fun a => a.status == DB.Status.pendente)).length ∧
    (DB.getApplicationStats tbl).em_analise =
      (tbl.filter (fun a => a.status == DB.Status.em_analise)).length ∧
    (DB.getApplicationStats tbl).aprovado =
      (tbl.filter (fun a => a.status == DB.Status.aprovado)).length ∧
    (DB.getApplicationStats tbl).rejeitado =
      (tbl.filter (fun a => a.status == DB.Status.rejeitado)).length ∧
    (DB.getApplicationStats tbl).total =
      (DB.getApplicationStats tbl).pendente + (DB.getApplicationStats tbl).em_analise +
        (DB.getApplicationStats tbl).aprovado + (DB.getApplicationStats tbl).rejeitado :=
  ⟨rfl, rfl, rfl, rfl, rfl, length_eq_sum_status_filters tbl⟩

/-- Folding `s + f i` over a list is the sum of the mapped list. -/
theorem foldl_add_map (f : Nat → Nat) (l : List Nat) (n : Nat) :
    l.foldl (fun s i => s + f i) n = n + (l.map f).sum := by
  induction l generalizing n with
  | nil => simp
  | cons a t ih => simp [ih, Nat.add_assoc]

/-- The first remainder computed by the code equals the claim's first
verification digit. -/
theorem cpfRem1_eq_specDV1 (d : List Nat) : Client.cpfRem1 d = Client.specDV1 d := by
  simp [Client.cpfRem1, Client.specDV1, Client.cpfSum1, foldl_add_map]

/-- The second remainder computed by the code equals the claim's second
verification digit. -/
theorem cpfRem2_eq_specDV2 (d : List Nat) : Client.cpfRem2 d = Client.specDV2 d := by
  simp [Client.cpfRem2, Client.specDV2, Client.cpfSum2, foldl_add_map]

/-- On an 11-digit list, the repetition regex holds exactly when every digit
equals the first. -/
theorem allSameDigits_iff (d : List Nat) (h : d.length = 11) :
    Client.allSameDigits d = true ↔ ∀ x ∈ d, x = d.getD 0 0 := by
  rcases d with _ | ⟨a, _ | ⟨b, t⟩⟩
  · simp at h
  · simp at h
  · simp only [Client.allSameDigits, List.all_eq_true, beq_iff_eq, List.getD_cons_zero]
    constructor
    · intro hall x hx
      rcases List.mem_cons.mp hx with hxa | hxm
      · exact hxa
      · exact hall x hxm
    · intro hall x hx
      exact hall x (List.mem_cons_of_mem a hx)

/-- The sequential early returns of `isValidCPF` collapse to a conjunction of
its four checks. -/
theorem isValidCPF_eq (cpf : String) :
    Client.isValidCPF cpf = true ↔
      ((Client.cleanDigits cpf).length = 11 ∧
       Client.allSameDigits (Client.cleanDigits cpf) = false ∧
       Client.cpfRem1 (Client.cleanDigits cpf) = (Client.cleanDigits cpf).getD 9 0 ∧
       Client.cpfRem2 (Client.cleanDigits cpf) = (Client.cleanDigits cpf).getD 10 0) := by
  unfold Client.isValidCPF
  by_cases h1 : (Client.cleanDigits cpf).length = 11 <;>
    by_cases h2 : Client.allSameDigits (Client.cleanDigits cpf) = true <;>
      by_cases h3 : Client.cpfRem1 (Client.cleanDigits cpf) =
          (Client.cleanDigits cpf).getD 9 0 <;>
        by_cases h4 : Client.cpfRem2 (Client.cleanDigits cpf) =
            (Client.cleanDigits cpf).getD 10 0 <;>
          simp [h1, h2, h3, h4]

/-- Claim C2: `isValidCPF` returns true exactly when the cleaned input has
eleven digits, they are not all identical, and the tenth and eleventh digits
match the two digit-weighting checksums of the claim. -/
theorem isValidCPF_iff (cpf : String) :
    Client.isValidCPF cpf = true ↔
      ((Client.cleanDigits cpf).length = 11 ∧
       ¬(∀ x ∈ Client.cleanDigits cpf, x = (Client.cleanDigits cpf).getD 0 0) ∧
       (Client.cleanDigits cpf).getD 9 0 = Client.specDV1 (Client.cleanDigits cpf) ∧
       (Client.cleanDigits cpf).getD 10 0 = Client.specDV2 (Client.cleanDigits cpf)) := by
  rw [isValidCPF_eq]
  simp only [cpfRem1_eq_specDV1, cpfRem2_eq_specDV2]
  constructor
  · rintro ⟨h1, h2, h3, h4⟩
    refine ⟨h1, ?_, h3.symm, h4.symm⟩
    intro hall
    rw [(allSameDigits_iff _ h1).mpr hall] at h2
    exact Bool.true_eq_false.mp h2
  · rintro ⟨h1, h2, h3, h4⟩
    refine ⟨h1, ?_, h3.symm, h4.symm⟩
    cases hb : Client.allSameDigits (Client.cleanDigits cpf)
    · rfl
    · exact absurd ((allSameDigits_iff _ h1).mp hb) h2

/-- The accumulated `WHERE` conditions hold exactly when each supplied filter
is satisfied; an omitted filter imposes no constraint. -/
theorem matchesConditions_iff (f : DB.ListFilters) (a : DB.Application) :
    DB.matchesConditions f a = true ↔
      ((∀ v, f.availability = some v → a.availability = v) ∧
       (∀ t, f.startDate = some t → t ≤ a.createdAt) ∧
       (∀ t, f.endDate = some t → a.createdAt ≤ t)) := by
  rcases f with ⟨vt, av, sd, ed⟩
  cases av <;> cases sd <;> cases ed <;> simp [DB.matchesConditions, and_assoc]

/-- Claim C3: `listApplications` returns exactly the stored applications that
satisfy every supplied filter — inclusive range on `createdAt`, equality on
`availability`, membership of the requested vehicle type — and an omitted
filter imposes no constraint. -/
theorem listApplications_mem_iff (tbl : DB.Table) (f : DB.ListFilters)
    (a : DB.Application) :
    a ∈ DB.listApplications tbl f ↔
      (a ∈ tbl ∧
       (∀ v, f.availability = some v → a.availability = v) ∧
       (∀ t, f.startDate = some t → t ≤ a.createdAt) ∧
       (∀ t, f.endDate = some t → a.createdAt ≤ t) ∧
       (∀ vt, f.vehicleType = some vt → vt ∈ a.vehicleTypes)) := by
  have hperm : ∀ x : DB.Application,
      x ∈ List.insertionSort DB.newerFirst (tbl.filter (DB.matchesConditions f)) ↔
        x ∈ tbl.filter (DB.matchesConditions f) :=
    fun x => (List.perm_insertionSort DB.newerFirst _).mem_iff
  unfold DB.listApplications
  cases hvt : f.vehicleType with
  | none =>
    simp only [hvt]
    rw [hperm, List.mem_filter, matchesConditions_iff]
    simp [hvt]
  | some vt =>
    simp only [hvt]
    rw [List.mem_filter, hperm, List.mem_filter, matchesConditions_iff]
    simp [hvt, List.contains]
    tauto

/-- Claim C8: the list returned by `listApplications` is sorted by `createdAt`
descending (newest first); the in-memory vehicle-type filter preserves the
order. -/
theorem listApplications_sorted (tbl : DB.Table) (f : DB.ListFilters) :
    List.Sorted DB.newerFirst (DB.listApplications tbl f) := by
  have hs : List.Sorted DB.newerFirst
      (List.insertionSort DB.newerFirst (tbl.filter (DB.matchesConditions f))) :=
    List.sorted_insertionSort DB.newerFirst _
  unfold DB.listApplications
  cases hvt : f.vehicleType with
  | none => simpa using hs
  | some vt =>
    exact List.Pairwise.sublist (List.filter_sublist _) hs

/-- The db lookup finds nothing exactly when no row has the id. -/
theorem getApplicationById_eq_none (tbl : DB.Table) (i : Nat) :
    DB.getApplicationById tbl i = none ↔ ∀ a ∈ tbl, a.id ≠ i := by
  simp [DB.getApplicationById, List.find?_eq_none]

/-- With unique ids, the db lookup returns the row with the requested id. -/
theorem getApplicationById_eq_some (tbl : DB.Table) (i : Nat) (a : DB.Application)
    (ha : a ∈ tbl) (hid : a.id = i) (huniq : ∀ b ∈ tbl, b.id = i → b = a) :
    DB.getApplicationById tbl i = some a := by
  cases hf : DB.getApplicationById tbl i with
  | none =>
    exact absurd hid ((getApplicationById_eq_none tbl i).mp hf a ha)
  | some b =>
    have hb : b ∈ tbl := List.mem_of_find?_eq_some hf
    have hbi : b.id = i := by simpa using List.find?_some hf
    rw [huniq b hb hbi]

/-- Claim C6: `applications.list`, `getById`, `updateStatus` and `stats` all
fail for any caller that is not an authenticated admin — an authenticated
non-admin gets FORBIDDEN with message 'Acesso restrito a administradores', an
unauthenticated caller also fails — and on failure the stored table is
unchanged; an admin caller always reaches the handler. -/
theorem admin_procedures_gated (caller : Option Router.Role) (tbl : DB.Table)
    (f : DB.ListFilters) (i : Nat) (st : DB.Status) :
    (caller ≠ some Router.Role.admin →
      ((∃ e, (Router.listProc caller tbl f).1 = Except.error e) ∧
       (∃ e, (Router.getByIdProc caller tbl i).1 = Except.error e) ∧
       (∃ e, (Router.updateStatusProc caller tbl i st).1 = Except.error e) ∧
       (∃ e, (Router.statsProc caller tbl).1 = Except.error e)) ∧
      ((Router.listProc caller tbl f).2 = tbl ∧
       (Router.getByIdProc caller tbl i).2 = tbl ∧
       (Router.updateStatusProc caller tbl i st).2 = tbl ∧
       (Router.statsProc caller tbl).2 = tbl)) ∧
    (∀ r, caller = some r → r ≠ Router.Role.admin →
      ((Router.listProc caller tbl f).1 =
         Except.error (Router.ApiError.forbidden "Acesso restrito a administradores") ∧
       (Router.getByIdProc caller tbl i).1 =
         Except.error (Router.ApiError.forbidden "Acesso restrito a administradores") ∧
       (Router.updateStatusProc caller tbl i st).1 =
         Except.error (Router.ApiError.forbidden "Acesso restrito a administradores") ∧
       (Router.statsProc caller tbl).1 =
         Except.error (Router.ApiError.forbidden "Acesso restrito a administradores"))) ∧
    (caller = some Router.Role.admin →
      ((Router.listProc caller tbl f).1 = Except.ok (DB.listApplications tbl f) ∧
       (Router.updateStatusProc caller tbl i st).1 = Except.ok true ∧
       (Router.statsProc caller tbl).1 = Except.ok (DB.getApplicationStats tbl) ∧
       ((∃ a, DB.getApplicationById tbl i = some a ∧
           (Router.getByIdProc caller tbl i).1 = Except.ok a) ∨
        (DB.getApplicationById tbl i = none ∧
           (Router.getByIdProc caller tbl i).1 =
             Except.error (Router.ApiError.notFound "Candidatura não encontrada"))))) := by
  rcases caller with _ | r
  · refine ⟨fun _ => ?_, ?_, ?_⟩
    · exact ⟨⟨⟨Router.ApiError.unauthorized, rfl⟩, ⟨Router.ApiError.unauthorized, rfl⟩,
        ⟨Router.ApiError.unauthorized, rfl⟩, ⟨Router.ApiError.unauthorized, rfl⟩⟩,
        rfl, rfl, rfl, rfl⟩
    · intro r hr
      exact absurd hr (by simp)
    · intro h
      exact absurd h (by simp)
  · cases r
    · refine ⟨fun _ => ?_, fun r hr _ => ?_, ?_⟩
      · exact ⟨⟨⟨Router.ApiError.forbidden "Acesso restrito a administradores", rfl⟩,
          ⟨Router.ApiError.forbidden "Acesso restrito a administradores", rfl⟩,
          ⟨Router.ApiError.forbidden "Acesso restrito a administradores", rfl⟩,
          ⟨Router.ApiError.forbidden "Acesso restrito a administradores", rfl⟩⟩,
          rfl, rfl, rfl, rfl⟩
      · exact ⟨rfl, rfl, rfl, rfl⟩
      · intro h
        exact absurd h (by simp)
    · refine ⟨fun h => absurd rfl h, fun r hr hne => ?_, fun _ => ?_⟩
      · cases hr
        exact absurd rfl hne
      · refine ⟨rfl, rfl, rfl, ?_⟩
        cases hfind : DB.getApplicationById tbl i with
        | none =>
          refine Or.inr ⟨rfl, ?_⟩
          simp [Router.getByIdProc, Router.adminGate, Router.protectedGate, hfind]
        | some a =>
          refine Or.inl ⟨a, rfl, ?_⟩
          simp [Router.getByIdProc, Router.adminGate, Router.protectedGate, hfind]

/-- Witness for C6: a concrete authenticated non-admin caller is rejected on a
concrete table while the admin caller goes through. -/
theorem admin_procedures_gated_witness :
    ((Router.listProc (some Router.Role.user) [sampleApp] noFilters).1 =
       Except.error (Router.ApiError.forbidden "Acesso restrito a administradores") ∧
     (Router.getByIdProc (some Router.Role.user) [sampleApp] 1).1 =
       Except.error (Router.ApiError.forbidden "Acesso restrito a administradores") ∧
     (Router.updateStatusProc (some Router.Role.user) [sampleApp] 1 DB.Status.aprovado).1 =
       Except.error (Router.ApiError.forbidden "Acesso restrito a administradores") ∧
     (Router.statsProc (some Router.Role.user) [sampleApp]).1 =
       Except.error (Router.ApiError.forbidden "Acesso restrito a administradores")) :=
  (admin_procedures_gated (some Router.Role.user) [sampleApp] noFilters 1
    DB.Status.aprovado).2.1 Router.Role.user rfl (by decide)

/-- Claim C9: for an admin caller, `applications.getById` throws NOT_FOUND
'Candidatura não encontrada' exactly when no application has the given id;
otherwise it returns the application with that id; in neither case does it
modify the stored table (for any caller). -/
theorem getById_spec (tbl : DB.Table) (i : Nat) :
    ((Router.getByIdProc (some Router.Role.admin) tbl i).1 =
        Except.error (Router.ApiError.notFound "Candidatura não encontrada") ↔
      ∀ a ∈ tbl, a.id ≠ i) ∧
    (∀ a, a ∈ tbl → a.id = i → (∀ b ∈ tbl, b.id = i → b = a) →
      (Router.getByIdProc (some Router.Role.admin) tbl i).1 = Except.ok a) ∧
    (∀ c, (Router.getByIdProc c tbl i).2 = tbl) := by
  refine ⟨?_, ?_, ?_⟩
  · cases hfind : DB.getApplicationById tbl i with
    | none =>
      simp only [Router.getByIdProc, Router.adminGate, Router.protectedGate, hfind]
      simpa using (getApplicationById_eq_none tbl i).mp hfind
    | some b =>
      simp only [Router.getByIdProc, Router.adminGate, Router.protectedGate, hfind]
      have hb : b ∈ tbl := List.mem_of_find?_eq_some hfind
      have hbi : b.id = i := by simpa using List.find?_some hfind
      constructor
      · intro h
        exact absurd h (by simp)
      · intro hall
        exact absurd hbi (hall b hb)
  · intro a ha hid huniq
    have := getApplicationById_eq_some tbl i a ha hid huniq
    simp [Router.getByIdProc, Router.adminGate, Router.protectedGate, this]
  · intro c
    rcases c with _ | r
    · rfl
    · cases r
      · rfl
      · cases hfind : DB.getApplicationById tbl i <;>
          simp [Router.getByIdProc, Router.adminGate, Router.protectedGate, hfind]

/-- Witness for C9: on a concrete one-row table the missing id 2 raises
NOT_FOUND and the present id 1 returns the row. -/
theorem getById_spec_witness :
    (Router.getByIdProc (some Router.Role.admin) [sampleApp] 1).1 =
      Except.ok sampleApp ∧
    (∀ c, (Router.getByIdProc c [sampleApp] 2).2 = [sampleApp]) :=
  ⟨(getById_spec [sampleApp] 1).2.1 sampleApp (List.mem_singleton.mpr rfl) rfl
      (by intro b hb _; simpa using hb),
    (getById_spec [sampleApp] 2).2.2⟩

/-- A JS-falsy optional string (absent or empty) is coerced to null. -/
theorem orNull_falsy (o : Option String) (h : o = none ∨ o = some "") :
    Router.orNull o = none := by
  rcases h with rfl | rfl <;> simp [Router.orNull]

/-- Claim C7: `applications.submit` needs no authentication — its result does
not depend on the caller — and an accepted submission stores a record with
status `pendente`, a falsy email and falsy notes stored as null, and returns
success with the new id. -/
theorem submit_public_and_defaults (emailOk : String → Bool)
    (c c' : Option Router.Role) (tbl : DB.Table) (i : Router.SubmitInput)
    (newId : Nat) (now : Int)
    (h : Router.submitInputValid emailOk i = true) :
    Router.submitProc emailOk c tbl i newId now =
      Router.submitProc emailOk c' tbl i newId now ∧
    (Router.submitProc emailOk c tbl i newId now).1 = Except.ok (true, newId) ∧
    ∃ app : DB.Application,
      (Router.submitProc emailOk c tbl i newId now).2 = tbl ++ [app] ∧
      app.id = newId ∧
      app.status = DB.Status.pendente ∧
      (i.email = none ∨ i.email = some "" → app.email = none) ∧
      (i.notes = none ∨ i.notes = some "" → app.notes = none) := by
  refine ⟨rfl, by simp [Router.submitProc, h], Router.submitRow i newId now,
    by simp [Router.submitProc, h], rfl, rfl,
    fun he => orNull_falsy i.email he, fun hn => orNull_falsy i.notes hn⟩

/-- A concrete accepted submission with falsy (empty-string) email and notes. -/
def goodInput : Router.SubmitInput :=
  { fullName := "João Silva"
    phone := "(11) 99999-9999"
    email := some ""
    cpf := "529.982.247-25"
    city := "São Paulo"
    state := "SP"
    vehicleTypes := ["caminhao", "carro"]
    experienceYears := 5
    availability := DB.Availability.imediata
    hasPendingFines := false
    acceptsLongTrips := true
    preferredSchedule := DB.Schedule.integral
    hasExperienceWithCargo := true
    hasExperienceWithPassengers := false
    notes := some "" }

/-- Witness for C7: the concrete submission is accepted, the created row is
`pendente`, and its empty email and notes are stored as null. -/
theorem submit_public_and_defaults_witness :
    Router.submitInputValid (fun _ => false) goodInput = true ∧
    (Router.submitProc (fun _ => false) none [] goodInput 1 0).1 =
      Except.ok (true, 1) ∧
    ∃ app : DB.Application,
      (Router.submitProc (fun _ => false) none [] goodInput 1 0).2 = [] ++ [app] ∧
      app.id = 1 ∧ app.status = DB.Status.pendente ∧
      app.email = none ∧ app.notes = none := by
  have h := submit_public_and_defaults (fun _ => false) none
    (some Router.Role.user) [] goodInput 1 0 (by decide)
  rcases h.2.2 with ⟨app, h2, h3, h4, h5, h6⟩
  exact ⟨by decide, h.2.1, app, h2, h3, h4, h5 (Or.inr rfl), h6 (Or.inr rfl)⟩

/-- The vehicle-type tag set offered by the form (`vehicleOptions`) and named
in the glossary. -/
def vehicleTags : List String := ["moto", "carro", "van", "caminhao", "onibus"]

/-- A concrete submission whose `vehicleTypes` holds a string outside the tag
set. -/
def badInput : Router.SubmitInput :=
  { fullName := "João Silva"
    phone := "(11) 99999-9999"
    email := none
    cpf := "529.982.247-25"
    city := "São Paulo"
    state := "SP"
    vehicleTypes := ["bicicleta"]
    experienceYears := 5
    availability := DB.Availability.imediata
    hasPendingFines := false
    acceptsLongTrips := true
    preferredSchedule := DB.Schedule.integral
    hasExperienceWithCargo := true
    hasExperienceWithPassengers := false
    notes := none }

/-- Counterexample to claim C4: the submit schema accepts a `vehicleTypes`
entry outside the tag set {moto, carro, van, caminhao, onibus} — the
submission with `["bicicleta"]` passes validation and is stored. -/
theorem submit_accepts_unknown_vehicleType :
    Router.submitInputValid (fun _ => false) badInput = true ∧
    "bicicleta" ∈ badInput.vehicleTypes ∧
    "bicicleta" ∉ vehicleTags ∧
    (Router.submitProc (fun _ => false) none [] badInput 1 0).1 =
      Except.ok (true, 1) := by
  have hv : Router.submitInputValid (fun _ => false) badInput = true := by decide
  exact ⟨hv, by decide, by decide, by simp [Router.submitProc, hv]⟩

/-- Claim C4 (amended): the server accepts `vehicleTypes` exactly when it is a
non-empty array of strings — an accepted submission has a non-empty
`vehicleTypes`, and replacing it by any non-empty list of strings keeps the
submission accepted, so no tag-set membership is enforced. -/
theorem submit_vehicleTypes_nonempty_only (emailOk : String → Bool)
    (i : Router.SubmitInput) (h : Router.submitInputValid emailOk i = true) :
    i.vehicleTypes ≠ [] ∧
    ∀ vts : List String, vts ≠ [] →
      Router.submitInputValid emailOk { i with vehicleTypes := vts } = true := by
  simp only [Router.submitInputValid, Bool.and_eq_true, decide_eq_true_eq] at h
  obtain ⟨⟨⟨⟨⟨⟨⟨h1, h2⟩, h3⟩, h4⟩, h5⟩, h6⟩, h7⟩, h8⟩ := h
  constructor
  · intro hnil
    rw [hnil] at h7
    simp at h7
  · intro vts hvts
    simp only [Router.submitInputValid, Bool.and_eq_true, decide_eq_true_eq]
    exact ⟨⟨⟨⟨⟨⟨⟨h1, h2⟩, h3⟩, h4⟩, h5⟩, h6⟩, List.length_pos.mpr hvts⟩, h8⟩

/-- Witness for the amended C4 at the concrete rejected-by-the-claim input. -/
theorem submit_vehicleTypes_nonempty_only_witness :
    badInput.vehicleTypes ≠ [] ∧
    ∀ vts : List String, vts ≠ [] →
      Router.submitInputValid (fun _ => false) { badInput with vehicleTypes := vts } = true :=
  submit_vehicleTypes_nonempty_only (fun _ => false) badInput (by decide)

/-- Every character kept by the digit mask is a digit. -/
theorem mem_first11Digits_isDigit (s : String) :
    ∀ c ∈ Client.first11Digits s, c.isDigit = true :=
  fun c hc => (List.mem_filter.mp (List.mem_of_mem_take hc)).2

/-- The digit mask keeps at most eleven characters. -/
theorem first11Digits_length_le (s : String) :
    (Client.first11Digits s).length ≤ 11 := by
  simp [Client.first11Digits]

/-- Splicing a take back before the matching drop restores the drop. -/
theorem drop_take_splice (d : List Char) (a b c : Nat) (h : a + b = c) :
    (d.drop a).take b ++ d.drop c = d.drop a := by
  subst h
  have hh : (d.drop a).take b ++ (d.drop a).drop b = d.drop a :=
    List.take_append_drop b (d.drop a)
  simpa using hh

/-- Extracting the first eleven digits of a formatted CPF recovers the digits
that were formatted. -/
theorem first11_formatCPFDigits (d : List Char) (hd : ∀ c ∈ d, c.isDigit = true)
    (hl : d.length ≤ 11) :
    Client.first11Digits (Client.formatCPFDigits d) = d := by
  have hsub : ∀ l : List Char, (∀ c ∈ l, c ∈ d) → l.filter Char.isDigit = l :=
    fun l hs => List.filter_eq_self.mpr fun c hc => hd c (hs c hc)
  have ht3 : List.filter Char.isDigit (d.take 3) = d.take 3 :=
    hsub _ fun _ hc => List.mem_of_mem_take hc
  have h36 : List.filter Char.isDigit ((d.drop 3).take 3) = (d.drop 3).take 3 :=
    hsub _ fun _ hc => List.mem_of_mem_drop (List.mem_of_mem_take hc)
  have h69 : List.filter Char.isDigit ((d.drop 6).take 3) = (d.drop 6).take 3 :=
    hsub _ fun _ hc => List.mem_of_mem_drop (List.mem_of_mem_take hc)
  have hd3 : List.filter Char.isDigit (d.drop 3) = d.drop 3 :=
    hsub _ fun _ hc => List.mem_of_mem_drop hc
  have hd6 : List.filter Char.isDigit (d.drop 6) = d.drop 6 :=
    hsub _ fun _ hc => List.mem_of_mem_drop hc
  have hd9 : List.filter Char.isDigit (d.drop 9) = d.drop 9 :=
    hsub _ fun _ hc => List.mem_of_mem_drop hc
  have hall : List.filter Char.isDigit d = d := hsub d fun _ hc => hc
  have hmk : ∀ l : List Char, (String.mk l).data = l := fun _ => rfl
  have hdot : ("." : String).data = ['.'] := rfl
  have hdash : ("-" : String).data = ['-'] := rfl
  have hfdot : List.filter Char.isDigit ['.'] = [] := rfl
  have hfdash : List.filter Char.isDigit ['-'] = [] := rfl
  unfold Client.formatCPFDigits
  split_ifs with h1 h2 h3 <;>
    simp only [Client.first11Digits, String.data_append, List.filter_append, hmk,
      hdot, hdash, hfdot, hfdash, ht3, h36, h69, hd3, hd6, hd9, hall,
      List.append_nil, List.nil_append, List.append_assoc]
  · exact List.take_of_length_le hl
  · rw [List.take_append_drop]
    exact List.take_of_length_le hl
  · rw [drop_take_splice d 3 3 6 rfl, List.take_append_drop]
    exact List.take_of_length_le hl
  · rw [drop_take_splice d 6 3 9 rfl, drop_take_splice d 3 3 6 rfl,
      List.take_append_drop]
    exact List.take_of_length_le hl

/-- Extracting the first eleven digits of a formatted phone number recovers the
digits that were formatted. -/
theorem first11_formatPhoneDigits (d : List Char) (hd : ∀ c ∈ d, c.isDigit = true)
    (hl : d.length ≤ 11) :
    Client.first11Digits (Client.formatPhoneDigits d) = d := by
  have hsub : ∀ l : List Char, (∀ c ∈ l, c ∈ d) → l.filter Char.isDigit = l :=
    fun l hs => List.filter_eq_self.mpr fun c hc => hd c (hs c hc)
  have ht2 : List.filter Char.isDigit (d.take 2) = d.take 2 :=
    hsub _ fun _ hc => List.mem_of_mem_take hc
  have h25 : List.filter Char.isDigit ((d.drop 2).take 5) = (d.drop 2).take 5 :=
    hsub _ fun _ hc => List.mem_of_mem_drop (List.mem_of_mem_take hc)
  have hd2 : List.filter Char.isDigit (d.drop 2) = d.drop 2 :=
    hsub _ fun _ hc => List.mem_of_mem_drop hc
  have hd7 : List.filter Char.isDigit (d.drop 7) = d.drop 7 :=
    hsub _ fun _ hc => List.mem_of_mem_drop hc
  have hall : List.filter Char.isDigit d = d := hsub d fun _ hc => hc
  have hmk : ∀ l : List Char, (String.mk l).data = l := fun _ => rfl
  have hopen : ("(" : String).data = ['('] := rfl
  have hclose : (") " : String).data = [')', ' '] := rfl
  have hdash : ("-" : String).data = ['-'] := rfl
  have hfopen : List.filter Char.isDigit ['('] = [] := rfl
  have hfclose : List.filter Char.isDigit [')', ' '] = [] := rfl
  have hfdash : List.filter Char.isDigit ['-'] = [] := rfl
  unfold Client.formatPhoneDigits
  split_ifs with h1 h2 <;>
    simp only [Client.first11Digits, String.data_append, List.filter_append, hmk,
      hopen, hclose, hdash, hfopen, hfclose, hfdash, ht2, h25, hd2, hd7, hall,
      List.append_nil, List.nil_append, List.append_assoc]
  · exact List.take_of_length_le hl
  · rw [List.take_append_drop]
    exact List.take_of_length_le hl
  · rw [drop_take_splice d 2 5 7 rfl, List.take_append_drop]
    exact List.take_of_length_le hl

/-- Claim C10: `formatCPF` and `formatPhone` are idempotent, and each output
depends only on the first eleven digit characters of the input — all
non-digits are discarded and digits past the eleventh are truncated before
formatting. -/
theorem masking_idempotent_digit_driven :
    (∀ s, Client.formatCPF (Client.formatCPF s) = Client.formatCPF s) ∧
    (∀ s, Client.formatPhone (Client.formatPhone s) = Client.formatPhone s) ∧
    (∀ s t, Client.first11Digits s = Client.first11Digits t →
      Client.formatCPF s = Client.formatCPF t ∧
      Client.formatPhone s = Client.formatPhone t) := by
  refine ⟨fun s => ?_, fun s => ?_, fun s t h => ?_⟩
  · show Client.formatCPFDigits (Client.first11Digits (Client.formatCPF s)) =
      Client.formatCPF s
    rw [show Client.formatCPF s = Client.formatCPFDigits (Client.first11Digits s) from rfl,
      first11_formatCPFDigits _ (mem_first11Digits_isDigit s) (first11Digits_length_le s)]
  · show Client.formatPhoneDigits (Client.first11Digits (Client.formatPhone s)) =
      Client.formatPhone s
    rw [show Client.formatPhone s = Client.formatPhoneDigits (Client.first11Digits s) from rfl,
      first11_formatPhoneDigits _ (mem_first11Digits_isDigit s) (first11Digits_length_le s)]
  · exact ⟨congrArg Client.formatCPFDigits h, congrArg Client.formatPhoneDigits h⟩
